import Mathlib

/-!
Verification development for the UniTok deletion-request lifecycle
(`src/index.js`): token-keyed records stored one file per token, with
creation, duplicate-check-with-reclamation, expiry and confirmation.

The store (the `data/` directory) is modelled as a list of
`(fileName, content)` entries in directory order; `Option.none` content
models a file whose JSON fails to parse (an unreadable record).
Timestamps are integer milliseconds; the configured expiry window is an
`Option Nat` of hours (`Option.none` models an unset or non-numeric
`TOKEN_EXPIRY_HOURS` environment variable).
-/

namespace UniTok

/-- A deletion request record, one per stored JSON file
(`requestData` in `src/index.js`). -/
structure DeletionRequest where
  email : String
  reason : String
  reasonText : String
  feedback : String
  token : String
  createdAt : Int
  confirmed : Bool
  confirmedAt : Option Int
  deriving Repr, DecidableEq

/-- The `data/` directory: entries keyed by token (the file
`token.json`); `Option.none` content is a file that does not parse. -/
abbrev Store := List (String × Option DeletionRequest)

/-- `getReasonText` of `src/index.js`: map a reason code to display
text; unknown codes pass through unchanged. -/
def getReasonText (reasonCode : String) : String :=
  if reasonCode = "no-longer-needed" then "I no longer need this account"
  else if reasonCode = "privacy-concerns" then "Privacy concerns"
  else if reasonCode = "too-many-emails" then "Receiving too many emails"
  else if reasonCode = "switching-service" then "Switching to a different service"
  else if reasonCode = "difficult-to-use" then "The service is difficult to use"
  else if reasonCode = "other" then "Other reason"
  else reasonCode

/-- The expiry window in hours: `parseInt(process.env.TOKEN_EXPIRY_HOURS) || 24`.
`Option.none` models an unset or non-numeric variable (`parseInt` gives `NaN`);
a parsed `0` is falsy in JS, so it also falls back to 24. -/
def effectiveExpiryHours : Option Nat → Nat
  | Option.none => 24
  | Option.some h => if h = 0 then 24 else h

/-- `isTokenExpired` of `src/index.js`: strictly more than the window
has elapsed since `createdAt`. -/
def isTokenExpired (cfg : Option Nat) (now createdAt : Int) : Bool :=
  decide (now - createdAt > (effectiveExpiryHours cfg : Int) * 60 * 60 * 1000)

/-- `getRequest` of `src/index.js`: read `token.json` if it exists;
a file that fails to parse throws (modelled as `Except.error`). -/
def getRequest (token : String) : Store → Except Unit (Option DeletionRequest)
  | [] => Except.ok Option.none
  | p :: rest =>
    if p.1 = token then
      match p.2 with
      | Option.none => Except.error ()
      | Option.some r => Except.ok (Option.some r)
    else getRequest token rest

/-- `saveRequest` of `src/index.js`: `writeFileSync` of `token.json`,
overwriting the file if present, creating it otherwise. -/
def saveRequest (token : String) (r : DeletionRequest) : Store → Store
  | [] => [(token, Option.some r)]
  | p :: rest =>
    if p.1 = token then (token, Option.some r) :: rest
    else p :: saveRequest token r rest

/-- `deleteRequest` of `src/index.js`: unlink `token.json` if it exists. -/
def deleteRequest (token : String) : Store → Store
  | [] => []
  | p :: rest =>
    if p.1 = token then deleteRequest token rest
    else p :: deleteRequest token rest

/-- `hasPendingRequest` of `src/index.js`: scan the directory; an entry
that fails to parse is caught and skipped; an unconfirmed expired entry
for the email is unlinked and the scan continues; an unconfirmed
unexpired entry returns `true` at once (remaining entries unscanned).
Returns the result together with the directory after the scan. -/
def hasPendingRequest (cfg : Option Nat) (now : Int) (email : String) :
    Store → Bool × Store
  | [] => (false, [])
  | (t, Option.none) :: rest =>
    let p := hasPendingRequest cfg now email rest
    (p.1, (t, Option.none) :: p.2)
  | (t, Option.some d) :: rest =>
    if d.email = email ∧ d.confirmed = false then
      if isTokenExpired cfg now d.createdAt then
        hasPendingRequest cfg now email rest
      else (true, (t, Option.some d) :: rest)
    else
      let p := hasPendingRequest cfg now email rest
      (p.1, (t, Option.some d) :: p.2)

/-- Outcomes of the `GET /confirm/:token` handler. -/
inductive ConfirmResult where
  | notFound
  | expired
  | alreadyConfirmed
  | confirmed
  deriving Repr, DecidableEq

/-- The `GET /confirm/:token` handler of `src/index.js`: look the token
up; if missing, `notFound`; if the window has elapsed, delete the record
and answer `expired`; if already confirmed, answer `alreadyConfirmed`;
otherwise set `confirmed` and `confirmedAt` and persist. -/
def confirmToken (cfg : Option Nat) (now : Int) (token : String) (s : Store) :
    Except Unit (ConfirmResult × Store) :=
  match getRequest token s with
  | Except.error e => Except.error e
  | Except.ok Option.none => Except.ok (ConfirmResult.notFound, s)
  | Except.ok (Option.some r) =>
    if isTokenExpired cfg now r.createdAt then
      Except.ok (ConfirmResult.expired, deleteRequest token s)
    else if r.confirmed then
      Except.ok (ConfirmResult.alreadyConfirmed, s)
    else
      Except.ok (ConfirmResult.confirmed,
        saveRequest token
          { r with confirmed := true, confirmedAt := Option.some now } s)

/-- Outcomes of the `POST /request-deletion` handler. -/
inductive SubmitResult where
  | validationError
  | duplicateError
  | accepted (token : String)
  deriving Repr, DecidableEq

/-- The `POST /request-deletion` handler of `src/index.js` (storage
part): validate the email and reason, run the duplicate scan, then
build and persist the record under a fresh token `newToken`. -/
def submitRequest (cfg : Option Nat) (now : Int) (newToken : String)
    (email reason : String) (feedback : Option String) (s : Store) :
    SubmitResult × Store :=
  if !(email.data.contains '@') then (SubmitResult.validationError, s)
  else if reason = "" then (SubmitResult.validationError, s)
  else
    let scan := hasPendingRequest cfg now email s
    if scan.1 then (SubmitResult.duplicateError, scan.2)
    else
      let r : DeletionRequest :=
        { email := email, reason := reason,
          reasonText := getReasonText reason,
          feedback := feedback.getD "", token := newToken,
          createdAt := now, confirmed := false,
          confirmedAt := Option.none }
      (SubmitResult.accepted newToken, saveRequest newToken r scan.2)

/-- Sample record: a confirmed request created at time 0. -/
def c1rec : DeletionRequest :=
  { email := "u1@example.com", reason := "other", reasonText := "Other reason",
    feedback := "", token := "tok1", createdAt := 0, confirmed := true,
    confirmedAt := Option.some 1000 }

/-- Sample record: a pending request created at time 0. -/
def c2rec : DeletionRequest :=
  { email := "u2@example.com", reason := "privacy-concerns",
    reasonText := "Privacy concerns", feedback := "", token := "tok2",
    createdAt := 0, confirmed := false, confirmedAt := Option.none }

/-- `c2rec` after its confirmation at time 50. -/
def c2conf : DeletionRequest :=
  { c2rec with confirmed := true, confirmedAt := Option.some 50 }

/-- Sample record: a pending request for the scan-reclamation scenario. -/
def c3rec : DeletionRequest :=
  { email := "u3@example.com", reason := "other", reasonText := "Other reason",
    feedback := "", token := "tok3", createdAt := 0, confirmed := false,
    confirmedAt := Option.none }

/-- Sample record: an active (pending, unexpired) request blocking a
duplicate submission. -/
def c6rec : DeletionRequest :=
  { email := "u6@example.com", reason := "too-many-emails",
    reasonText := "Receiving too many emails", feedback := "fb", token := "tok6",
    createdAt := 0, confirmed := false, confirmedAt := Option.none }

/-- Sample record: a pending request that has expired. -/
def c7rec : DeletionRequest :=
  { email := "u7@example.com", reason := "other", reasonText := "Other reason",
    feedback := "", token := "tok7", createdAt := 0, confirmed := false,
    confirmedAt := Option.none }

/-- Sample record: two records sharing `createdAt`, first of the pair. -/
def c8a : DeletionRequest :=
  { email := "a8@example.com", reason := "other", reasonText := "Other reason",
    feedback := "", token := "tok8a", createdAt := 0, confirmed := false,
    confirmedAt := Option.none }

/-- Sample record: two records sharing `createdAt`, second of the pair. -/
def c8b : DeletionRequest :=
  { email := "b8@example.com", reason := "privacy-concerns",
    reasonText := "Privacy concerns", feedback := "x", token := "tok8b",
    createdAt := 0, confirmed := true, confirmedAt := Option.some 3 }

/-- Sample record: a pending request for the frame-condition scenario. -/
def c10rec : DeletionRequest :=
  { email := "u10@example.com", reason := "switching-service",
    reasonText := "Switching to a different service", feedback := "",
    token := "tokA", createdAt := 0, confirmed := false,
    confirmedAt := Option.none }

/-- An entry that the duplicate scan reclaims: it parses, matches the
email, is unconfirmed and is expired. -/
def reclaims (cfg : Option Nat) (now : Int) (email : String)
    (p : String × Option DeletionRequest) : Bool :=
  match p.2 with
  | Option.none => false
  | Option.some d =>
    decide (d.email = email) && !d.confirmed && isTokenExpired cfg now d.createdAt

theorem getRequest_saveRequest_self (token : String) (r : DeletionRequest) :
    ∀ s : Store, getRequest token (saveRequest token r s) =
      Except.ok (Option.some r) := by
  intro s
  induction s with
  | nil => simp [saveRequest, getRequest]
  | cons p rest ih =>
    by_cases hp : p.1 = token
    · simp [saveRequest, getRequest, hp]
    · simp [saveRequest, getRequest, hp, ih]

theorem getRequest_saveRequest_other (token other : String)
    (r : DeletionRequest) (hne : other ≠ token) :
    ∀ s : Store, getRequest other (saveRequest token r s) =
      getRequest other s := by
  intro s
  induction s with
  | nil => simp [saveRequest, getRequest, Ne.symm hne]
  | cons p rest ih =>
    by_cases hp : p.1 = token
    · simp [saveRequest, getRequest, hp, Ne.symm hne]
    · by_cases hq : p.1 = other
      · simp [saveRequest, getRequest, hp, hq, hne]
      · simp [saveRequest, getRequest, hp, hq, hne, ih]

theorem getRequest_deleteRequest_self (token : String) :
    ∀ s : Store, getRequest token (deleteRequest token s) =
      Except.ok Option.none := by
  intro s
  induction s with
  | nil => simp [deleteRequest, getRequest]
  | cons p rest ih =>
    by_cases hp : p.1 = token
    · simp [deleteRequest, hp, ih]
    · simp [deleteRequest, getRequest, hp, ih]

theorem getRequest_eq_none_of_keys (token : String) :
    ∀ s : Store, (∀ p ∈ s, p.1 ≠ token) →
      getRequest token s = Except.ok Option.none := by
  intro s
  induction s with
  | nil => intro _; simp [getRequest]
  | cons p rest ih =>
    intro h
    have hp : p.1 ≠ token := h p (List.mem_cons_self p rest)
    simp only [getRequest, if_neg hp]
    exact ih fun q hq => h q (List.mem_cons_of_mem p hq)

theorem hasPendingRequest_sublist (cfg : Option Nat) (now : Int) (email : String) :
    ∀ s : Store, (hasPendingRequest cfg now email s).2.Sublist s := by
  intro s
  induction s with
  | nil => simp [hasPendingRequest]
  | cons p rest ih =>
    obtain ⟨t, raw⟩ := p
    cases raw with
    | none =>
      simpa [hasPendingRequest] using List.Sublist.cons₂ (t, Option.none) ih
    | some d =>
      by_cases hm : d.email = email ∧ d.confirmed = false
      · by_cases hx : isTokenExpired cfg now d.createdAt
        · simpa [hasPendingRequest, hm, hx] using
            List.Sublist.cons (t, Option.some d) ih
        · simp [hasPendingRequest, hm, hx]
      · simpa [hasPendingRequest, hm] using
          List.Sublist.cons₂ (t, Option.some d) ih

theorem hasPendingRequest_true_of_active (cfg : Option Nat) (now : Int)
    (email t : String) (r : DeletionRequest) :
    ∀ s : Store, (t, Option.some r) ∈ s → r.email = email →
      r.confirmed = false → isTokenExpired cfg now r.createdAt = false →
      (hasPendingRequest cfg now email s).1 = true := by
  intro s
  induction s with
  | nil => intro h; cases h
  | cons p rest ih =>
    intro hmem hre hrc hrx
    rcases List.mem_cons.mp hmem with heq | htail
    · subst heq
      simp [hasPendingRequest, hre, hrc, hrx]
    · obtain ⟨t1, raw⟩ := p
      cases raw with
      | none => simpa [hasPendingRequest] using ih htail hre hrc hrx
      | some d =>
        by_cases hm : d.email = email ∧ d.confirmed = false
        · by_cases hx : isTokenExpired cfg now d.createdAt
          · simpa [hasPendingRequest, hm, hx] using ih htail hre hrc hrx
          · simp [hasPendingRequest, hm, hx]
        · simpa [hasPendingRequest, hm] using ih htail hre hrc hrx

theorem hasPendingRequest_of_no_active (cfg : Option Nat) (now : Int)
    (email : String) :
    ∀ s : Store,
      (∀ t d, (t, Option.some d) ∈ s → d.email = email →
        d.confirmed = false → isTokenExpired cfg now d.createdAt = true) →
      hasPendingRequest cfg now email s =
        (false, s.filter fun p => ! reclaims cfg now email p) := by
  intro s
  induction s with
  | nil => intro _; simp [hasPendingRequest]
  | cons p rest ih =>
    intro h
    have htail : ∀ t d, (t, Option.some d) ∈ rest → d.email = email →
        d.confirmed = false → isTokenExpired cfg now d.createdAt = true :=
      fun t d hmem => h t d (List.mem_cons_of_mem p hmem)
    obtain ⟨t1, raw⟩ := p
    cases raw with
    | none =>
      simp [hasPendingRequest, reclaims, ih htail, List.filter]
    | some d =>
      by_cases hm : d.email = email ∧ d.confirmed = false
      · have hx : isTokenExpired cfg now d.createdAt = true :=
          h t1 d (List.mem_cons_self _ _) hm.1 hm.2
        have hrec : reclaims cfg now email (t1, Option.some d) = true := by
          simp [reclaims, hm.1, hm.2, hx]
        simp [hasPendingRequest, hm, hx, ih htail, List.filter, hrec]
      · rcases Bool.eq_false_or_eq_true d.confirmed with hc | hc
        · have hrec : reclaims cfg now email (t1, Option.some d) = false := by
            simp [reclaims, hc]
          simp [hasPendingRequest, hc, ih htail, List.filter_cons, hrec]
        · have hne : ¬ d.email = email := fun he => hm ⟨he, hc⟩
          have hrec : reclaims cfg now email (t1, Option.some d) = false := by
            simp [reclaims, hne]
          simp [hasPendingRequest, hne, ih htail, List.filter_cons, hrec]

theorem hasPendingRequest_filter_corrupt (cfg : Option Nat) (now : Int)
    (email : String) :
    ∀ s : Store, (hasPendingRequest cfg now email s).1 =
      (hasPendingRequest cfg now email (s.filter fun p => p.2.isSome)).1 := by
  intro s
  induction s with
  | nil => rfl
  | cons p rest ih =>
    obtain ⟨t, raw⟩ := p
    cases raw with
    | none => simpa [hasPendingRequest, List.filter_cons] using ih
    | some d =>
      by_cases hm : d.email = email ∧ d.confirmed = false
      · by_cases hx : isTokenExpired cfg now d.createdAt
        · simpa [hasPendingRequest, List.filter_cons, hm, hx] using ih
        · simp [hasPendingRequest, List.filter_cons, hm, hx]
      · simpa [hasPendingRequest, List.filter_cons, hm] using ih

theorem hasPendingRequest_retains_corrupt (cfg : Option Nat) (now : Int)
    (email : String) :
    ∀ s : Store, ∀ p ∈ s, p.2 = Option.none →
      p ∈ (hasPendingRequest cfg now email s).2 := by
  intro s
  induction s with
  | nil => intro p hp; cases hp
  | cons q rest ih =>
    intro p hp hnone
    obtain ⟨t, raw⟩ := q
    rcases List.mem_cons.mp hp with heq | htail
    · subst heq
      cases raw with
      | none => simp [hasPendingRequest]
      | some d => simp at hnone
    · cases raw with
      | none =>
        simp only [hasPendingRequest]
        exact List.mem_cons_of_mem _ (ih p htail hnone)
      | some d =>
        by_cases hm : d.email = email ∧ d.confirmed = false
        · by_cases hx : isTokenExpired cfg now d.createdAt = true
          · simp only [hasPendingRequest, if_pos hm, if_pos hx]
            exact ih p htail hnone
          · simp only [hasPendingRequest, if_pos hm, if_neg hx]
            exact List.mem_cons_of_mem _ htail
        · simp only [hasPendingRequest, if_neg hm]
          exact List.mem_cons_of_mem _ (ih p htail hnone)

/-- C1 counterexample: a record with `confirmed = true` created at time 0,
looked up 25 hours later (window 24 h): the handler checks expiry before
the confirmed flag, so it deletes the record and answers `expired`, not
`alreadyConfirmed`; the subsequent lookup finds nothing. -/
theorem confirm_deletes_expired_confirmed_record :
    confirmToken Option.none 90000000 "tok1" [("tok1", Option.some c1rec)] =
      Except.ok (ConfirmResult.expired, ([] : Store)) ∧
    getRequest "tok1" ([] : Store) = Except.ok Option.none :=
  ⟨rfl, rfl⟩

/-- C1 (amended): for a stored record with `confirmed = true`, `confirm`
answers `alreadyConfirmed` and retains the record only while
`now − createdAt` is within the expiry window; once the window has
elapsed, it deletes the record and answers `expired` even though the
record is confirmed. -/
theorem confirm_on_confirmed_record (cfg : Option Nat) (now : Int)
    (t : String) (s : Store) (r : DeletionRequest)
    (h : getRequest t s = Except.ok (Option.some r)) (hc : r.confirmed = true) :
    confirmToken cfg now t s =
      if isTokenExpired cfg now r.createdAt then
        Except.ok (ConfirmResult.expired, deleteRequest t s)
      else Except.ok (ConfirmResult.alreadyConfirmed, s) := by
  unfold confirmToken
  rw [h]
  by_cases hx : isTokenExpired cfg now r.createdAt
  · simp [hx]
  · simp [hx, hc]

/-- C1 witness: a confirmed record visited within the window keeps the
record and answers `alreadyConfirmed`. -/
theorem confirm_on_confirmed_record_witness :
    confirmToken Option.none 100 "tok1" [("tok1", Option.some c1rec)] =
      Except.ok (ConfirmResult.alreadyConfirmed, [("tok1", Option.some c1rec)]) := by
  have h := confirm_on_confirmed_record Option.none 100 "tok1"
    [("tok1", Option.some c1rec)] c1rec rfl rfl
  rw [show isTokenExpired Option.none 100 c1rec.createdAt = false from rfl] at h
  simpa using h

/-- C2: `confirm` is idempotent in observable effect: on a pending
unexpired record the first call answers `confirmed`, setting `confirmed`
and `confirmedAt = now1` in the stored record; a second call within the
window answers `alreadyConfirmed`, leaves the store untouched, and the
record's `confirmedAt` is unchanged between the two calls. -/
theorem confirm_idempotent (cfg : Option Nat) (now1 now2 : Int) (t : String)
    (s : Store) (r : DeletionRequest)
    (h : getRequest t s = Except.ok (Option.some r)) (hc : r.confirmed = false)
    (h1 : isTokenExpired cfg now1 r.createdAt = false)
    (h2 : isTokenExpired cfg now2 r.createdAt = false) :
    confirmToken cfg now1 t s =
      Except.ok (ConfirmResult.confirmed,
        saveRequest t { r with confirmed := true, confirmedAt := Option.some now1 } s) ∧
    getRequest t (saveRequest t
        { r with confirmed := true, confirmedAt := Option.some now1 } s) =
      Except.ok (Option.some
        { r with confirmed := true, confirmedAt := Option.some now1 }) ∧
    ({ r with confirmed := true, confirmedAt := Option.some now1 }
      : DeletionRequest).confirmedAt = Option.some now1 ∧
    confirmToken cfg now2 t
        (saveRequest t { r with confirmed := true, confirmedAt := Option.some now1 } s) =
      Except.ok (ConfirmResult.alreadyConfirmed,
        saveRequest t { r with confirmed := true, confirmedAt := Option.some now1 } s) := by
  refine ⟨?_, getRequest_saveRequest_self t _ s, rfl, ?_⟩
  · unfold confirmToken
    rw [h]
    simp [h1, hc]
  · unfold confirmToken
    rw [getRequest_saveRequest_self t _ s]
    simp [h2]

/-- C2 witness: the two calls on a concrete pending record. -/
theorem confirm_idempotent_witness :
    confirmToken Option.none 50 "tok2" [("tok2", Option.some c2rec)] =
      Except.ok (ConfirmResult.confirmed, [("tok2", Option.some c2conf)]) ∧
    confirmToken Option.none 60 "tok2" [("tok2", Option.some c2conf)] =
      Except.ok (ConfirmResult.alreadyConfirmed, [("tok2", Option.some c2conf)]) := by
  obtain ⟨ha, hb, hcAt, hd⟩ := confirm_idempotent Option.none 50 60 "tok2"
    [("tok2", Option.some c2rec)] c2rec rfl rfl rfl rfl
  exact ⟨ha, hd⟩

/-- C3: when the only record for an email is unconfirmed and expired,
the duplicate scan answers `false`, reclaims (deletes) that record, and
a subsequent lookup of its token answers `notFound`. -/
theorem scan_reclaims_expired_sole_record (cfg : Option Nat) (now : Int)
    (email t : String) (r : DeletionRequest) (s : Store)
    (_hmem : (t, Option.some r) ∈ s)
    (hre : r.email = email) (hrc : r.confirmed = false)
    (hrx : isTokenExpired cfg now r.createdAt = true)
    (honly : ∀ t2 d, (t2, Option.some d) ∈ s → d.email = email →
      (t2, Option.some d) = (t, Option.some r))
    (hkey : ∀ raw, (t, raw) ∈ s → raw = Option.some r) :
    (hasPendingRequest cfg now email s).1 = false ∧
    getRequest t (hasPendingRequest cfg now email s).2 =
      Except.ok Option.none := by
  have hno : ∀ t2 d, (t2, Option.some d) ∈ s → d.email = email →
      d.confirmed = false → isTokenExpired cfg now d.createdAt = true := by
    intro t2 d hm he _
    have heq := honly t2 d hm he
    have hd : d = r := by
      have := congrArg Prod.snd heq
      simpa using this
    rw [hd]
    exact hrx
  have hscan := hasPendingRequest_of_no_active cfg now email s hno
  constructor
  · rw [hscan]
  · rw [hscan]
    apply getRequest_eq_none_of_keys
    intro p hp hpt
    have hmemS : p ∈ s := (List.mem_filter.mp hp).1
    have hfil : (! reclaims cfg now email p) = true := (List.mem_filter.mp hp).2
    have hraw : p.2 = Option.some r := by
      apply hkey p.2
      rw [← hpt]
      exact hmemS
    have hrecl : reclaims cfg now email p = true := by
      simp [reclaims, hraw, hre, hrc, hrx]
    simp [hrecl] at hfil

/-- C3 witness: a single expired pending record for the email. -/
theorem scan_reclaims_expired_sole_record_witness :
    (hasPendingRequest Option.none 90000000 "u3@example.com"
      [("tok3", Option.some c3rec)]).1 = false ∧
    getRequest "tok3" (hasPendingRequest Option.none 90000000 "u3@example.com"
      [("tok3", Option.some c3rec)]).2 = Except.ok Option.none := by
  apply scan_reclaims_expired_sole_record Option.none 90000000 "u3@example.com"
    "tok3" c3rec [("tok3", Option.some c3rec)] (List.mem_singleton.mpr rfl)
    rfl rfl rfl
  · intro t2 d hm _
    simpa using List.mem_singleton.mp hm
  · intro raw hm
    simpa using congrArg Prod.snd (List.mem_singleton.mp hm)

/-- C4: a valid submission (email with "@", non-empty reason) with no
active duplicate persists a record that an immediate lookup returns:
`confirmed = false`, `createdAt` the creation time, the given email and
reason, `reasonText` resolved from the code, feedback defaulting to the
empty string; unknown reason codes pass through as their own text. -/
theorem create_then_lookup (cfg : Option Nat) (now : Int)
    (tok email reason : String) (feedback : Option String) (s : Store)
    (he : email.data.contains '@' = true) (hr : reason ≠ "")
    (hd : (hasPendingRequest cfg now email s).1 = false) :
    (submitRequest cfg now tok email reason feedback s).1 =
      SubmitResult.accepted tok ∧
    getRequest tok (submitRequest cfg now tok email reason feedback s).2 =
      Except.ok (Option.some
        { email := email, reason := reason,
          reasonText := getReasonText reason,
          feedback := feedback.getD "", token := tok,
          createdAt := now, confirmed := false,
          confirmedAt := Option.none }) ∧
    (∀ code : String, code ≠ "no-longer-needed" → code ≠ "privacy-concerns" →
      code ≠ "too-many-emails" → code ≠ "switching-service" →
      code ≠ "difficult-to-use" → code ≠ "other" → getReasonText code = code) := by
  have he2 : '@' ∈ email.data := by simpa using he
  refine ⟨?_, ?_, ?_⟩
  · simp [submitRequest, he2, hr, hd]
  · simp [submitRequest, he2, hr, hd, getRequest_saveRequest_self]
  · intro code h1 h2 h3 h4 h5 h6
    simp [getReasonText, h1, h2, h3, h4, h5, h6]

/-- C4 witness: a concrete submission into an empty store. -/
theorem create_then_lookup_witness :
    (submitRequest Option.none 0 "tok4" "a@b.com" "privacy-concerns"
      Option.none []).1 = SubmitResult.accepted "tok4" ∧
    getRequest "tok4" (submitRequest Option.none 0 "tok4" "a@b.com"
        "privacy-concerns" Option.none []).2 =
      Except.ok (Option.some
        { email := "a@b.com", reason := "privacy-concerns",
          reasonText := "Privacy concerns", feedback := "", token := "tok4",
          createdAt := 0, confirmed := false, confirmedAt := Option.none }) ∧
    getReasonText "some-unknown-code" = "some-unknown-code" := by
  obtain ⟨h1, h2, h3⟩ := create_then_lookup Option.none 0 "tok4" "a@b.com"
    "privacy-concerns" Option.none [] (by decide) (by decide) rfl
  exact ⟨h1, h2, h3 "some-unknown-code" (by decide) (by decide) (by decide)
    (by decide) (by decide) (by decide)⟩

/-- C5 counterexample: a store holding one unreadable record. The scan
answers `(false, store unchanged)` — no storage error reaches the
caller — and a subsequent submission for the email succeeds as if the
unreadable record did not exist. -/
theorem scan_swallows_read_failure :
    hasPendingRequest Option.none 0 "a@b.com" [("bad", Option.none)] =
      (false, [("bad", Option.none)]) ∧
    submitRequest Option.none 0 "tok5" "a@b.com" "other" Option.none
        [("bad", Option.none)] =
      (SubmitResult.accepted "tok5",
        [("bad", Option.none),
         ("tok5", Option.some
           { email := "a@b.com", reason := "other",
             reasonText := "Other reason", feedback := "", token := "tok5",
             createdAt := 0, confirmed := false,
             confirmedAt := Option.none })]) :=
  ⟨rfl, rfl⟩

/-- C5 (amended): a read failure during the duplicate scan is caught
and skipped: the scan result is the same as if every unreadable record
were absent, no error propagates, and the unreadable records are left
in place (they are not deleted). -/
theorem scan_skips_unreadable_records (cfg : Option Nat) (now : Int)
    (email : String) (s : Store) :
    (hasPendingRequest cfg now email s).1 =
      (hasPendingRequest cfg now email (s.filter fun p => p.2.isSome)).1 ∧
    ∀ p ∈ s, p.2 = Option.none → p ∈ (hasPendingRequest cfg now email s).2 :=
  ⟨hasPendingRequest_filter_corrupt cfg now email s,
   hasPendingRequest_retains_corrupt cfg now email s⟩

/-- C5 witness: the amended behaviour at a concrete one-entry store. -/
theorem scan_skips_unreadable_records_witness :
    (hasPendingRequest Option.none 0 "a@b.com" [("bad", Option.none)]).1 =
      (hasPendingRequest Option.none 0 "a@b.com"
        ([("bad", Option.none)].filter fun p => p.2.isSome)).1 ∧
    ("bad", (Option.none : Option DeletionRequest)) ∈
      (hasPendingRequest Option.none 0 "a@b.com" [("bad", Option.none)]).2 := by
  obtain ⟨h1, h2⟩ := scan_skips_unreadable_records Option.none 0 "a@b.com"
    [("bad", Option.none)]
  exact ⟨h1, h2 _ (List.mem_singleton.mpr rfl) rfl⟩

/-- C6: while an active (unconfirmed, unexpired) record exists for the
email, a second submission for the same email is rejected as a
duplicate, and the resulting store is a sublist of the original — no
new record is persisted. -/
theorem duplicate_create_rejected (cfg : Option Nat) (now : Int)
    (tok email reason : String) (feedback : Option String) (s : Store)
    (t : String) (r : DeletionRequest)
    (hmem : (t, Option.some r) ∈ s) (hre : r.email = email)
    (hrc : r.confirmed = false)
    (hrx : isTokenExpired cfg now r.createdAt = false)
    (he : email.data.contains '@' = true) (hr : reason ≠ "") :
    (submitRequest cfg now tok email reason feedback s).1 =
      SubmitResult.duplicateError ∧
    (submitRequest cfg now tok email reason feedback s).2.Sublist s := by
  have hscan := hasPendingRequest_true_of_active cfg now email t r s hmem hre hrc hrx
  have he2 : '@' ∈ email.data := by simpa using he
  constructor
  · simp [submitRequest, he2, hr, hscan]
  · have h2 : (submitRequest cfg now tok email reason feedback s).2 =
        (hasPendingRequest cfg now email s).2 := by
      simp [submitRequest, he2, hr, hscan]
    rw [h2]
    exact hasPendingRequest_sublist cfg now email s

/-- C6 witness: a second submission while a concrete active record
exists. -/
theorem duplicate_create_rejected_witness :
    (submitRequest Option.none 100 "new6" "u6@example.com" "other" Option.none
      [("tok6", Option.some c6rec)]).1 = SubmitResult.duplicateError ∧
    (submitRequest Option.none 100 "new6" "u6@example.com" "other" Option.none
      [("tok6", Option.some c6rec)]).2.Sublist [("tok6", Option.some c6rec)] :=
  duplicate_create_rejected Option.none 100 "new6" "u6@example.com" "other"
    Option.none [("tok6", Option.some c6rec)] "tok6" c6rec
    (List.mem_singleton.mpr rfl) rfl rfl rfl (by decide) (by decide)

/-- C7: `confirm` on an unconfirmed record whose window has elapsed
answers `expired` and deletes the record; a subsequent lookup of the
token answers `notFound`. -/
theorem confirm_expired_deletes_record (cfg : Option Nat) (now : Int)
    (t : String) (s : Store) (r : DeletionRequest)
    (h : getRequest t s = Except.ok (Option.some r))
    (_hc : r.confirmed = false)
    (hx : isTokenExpired cfg now r.createdAt = true) :
    confirmToken cfg now t s =
      Except.ok (ConfirmResult.expired, deleteRequest t s) ∧
    getRequest t (deleteRequest t s) = Except.ok Option.none := by
  constructor
  · unfold confirmToken
    rw [h]
    simp [hx]
  · exact getRequest_deleteRequest_self t s

/-- C7 witness: a concrete expired pending record. -/
theorem confirm_expired_deletes_record_witness :
    confirmToken Option.none 90000000 "tok7" [("tok7", Option.some c7rec)] =
      Except.ok (ConfirmResult.expired,
        deleteRequest "tok7" [("tok7", Option.some c7rec)]) ∧
    getRequest "tok7" (deleteRequest "tok7" [("tok7", Option.some c7rec)]) =
      Except.ok Option.none :=
  confirm_expired_deletes_record Option.none 90000000 "tok7"
    [("tok7", Option.some c7rec)] c7rec rfl rfl rfl

/-- C8: expiry is computed on every read as a pure function of
`createdAt` and the configured window: a record is expired exactly when
`now − createdAt` is strictly greater than the window in milliseconds;
the window defaults to 24 hours when unconfigured; the result depends
on nothing in the record but `createdAt`. -/
theorem expiry_is_pure_strict_threshold (cfg : Option Nat) (now createdAt : Int) :
    (isTokenExpired cfg now createdAt = true ↔
      now - createdAt > (effectiveExpiryHours cfg : Int) * 60 * 60 * 1000) ∧
    effectiveExpiryHours Option.none = 24 ∧
    ∀ r1 r2 : DeletionRequest, r1.createdAt = r2.createdAt →
      isTokenExpired cfg now r1.createdAt = isTokenExpired cfg now r2.createdAt := by
  refine ⟨?_, rfl, ?_⟩
  · simp [isTokenExpired]
  · intro r1 r2 hcc
    rw [hcc]

/-- C8 witness: the threshold at a concrete instant and two records
agreeing on `createdAt` only. -/
theorem expiry_is_pure_strict_threshold_witness :
    (isTokenExpired Option.none 90000000 0 = true ↔
      (90000000 : Int) - 0 > (effectiveExpiryHours Option.none : Int) * 60 * 60 * 1000) ∧
    isTokenExpired Option.none 90000000 c8a.createdAt =
      isTokenExpired Option.none 90000000 c8b.createdAt := by
  obtain ⟨h1, _, h3⟩ := expiry_is_pure_strict_threshold Option.none 90000000 0
  exact ⟨h1, h3 c8a c8b rfl⟩

/-- C9: `confirm` on a token with no stored record answers `notFound`
and returns the store unchanged. -/
theorem confirm_unknown_token (cfg : Option Nat) (now : Int) (t : String)
    (s : Store) (h : getRequest t s = Except.ok Option.none) :
    confirmToken cfg now t s = Except.ok (ConfirmResult.notFound, s) := by
  unfold confirmToken
  rw [h]

/-- C9 witness: an empty store. -/
theorem confirm_unknown_token_witness :
    confirmToken Option.none 0 "missing" ([] : Store) =
      Except.ok (ConfirmResult.notFound, []) :=
  confirm_unknown_token Option.none 0 "missing" [] rfl

/-- C10: a successful `confirm` rewrites only `confirmed` and
`confirmedAt` of the record under the token — every other field is
unchanged — and every other stored token reads back exactly as before. -/
theorem confirm_frame_condition (cfg : Option Nat) (now : Int) (t : String)
    (s : Store) (r : DeletionRequest)
    (h : getRequest t s = Except.ok (Option.some r)) (hc : r.confirmed = false)
    (hx : isTokenExpired cfg now r.createdAt = false) :
    confirmToken cfg now t s =
      Except.ok (ConfirmResult.confirmed,
        saveRequest t { r with confirmed := true, confirmedAt := Option.some now } s) ∧
    ({ r with confirmed := true, confirmedAt := Option.some now }
      : DeletionRequest).email = r.email ∧
    ({ r with confirmed := true, confirmedAt := Option.some now }
      : DeletionRequest).reason = r.reason ∧
    ({ r with confirmed := true, confirmedAt := Option.some now }
      : DeletionRequest).reasonText = r.reasonText ∧
    ({ r with confirmed := true, confirmedAt := Option.some now }
      : DeletionRequest).feedback = r.feedback ∧
    ({ r with confirmed := true, confirmedAt := Option.some now }
      : DeletionRequest).token = r.token ∧
    ({ r with confirmed := true, confirmedAt := Option.some now }
      : DeletionRequest).createdAt = r.createdAt ∧
    ∀ t2, t2 ≠ t → getRequest t2
        (saveRequest t { r with confirmed := true, confirmedAt := Option.some now } s) =
      getRequest t2 s := by
  refine ⟨?_, rfl, rfl, rfl, rfl, rfl, rfl, ?_⟩
  · unfold confirmToken
    rw [h]
    simp [hx, hc]
  · intro t2 hne
    exact getRequest_saveRequest_other t t2 _ hne s

/-- C10 witness: a concrete confirmation, read back at another token. -/
theorem confirm_frame_condition_witness :
    confirmToken Option.none 70 "tokA" [("tokA", Option.some c10rec)] =
      Except.ok (ConfirmResult.confirmed,
        saveRequest "tokA"
          { c10rec with confirmed := true, confirmedAt := Option.some 70 }
          [("tokA", Option.some c10rec)]) ∧
    getRequest "tokB"
        (saveRequest "tokA"
          { c10rec with confirmed := true, confirmedAt := Option.some 70 }
          [("tokA", Option.some c10rec)]) =
      getRequest "tokB" [("tokA", Option.some c10rec)] := by
  obtain ⟨h1, _, _, _, _, _, _, h8⟩ := confirm_frame_condition Option.none 70
    "tokA" [("tokA", Option.some c10rec)] c10rec rfl rfl rfl
  exact ⟨h1, h8 "tokB" (by decide)⟩

end UniTok
